import Mathlib

/-!
# Verification of the Alpaca dataset classifier (`src/classifier.py`)

Shallow embedding of the classifier pipeline:

* the label normalizer inlined in `classify_instruction` (lines 62-67) and in
  the batch loop (lines 116-121);
* the retry loop with escalating timeouts in `classify_alpaca_dataset`
  (lines 90-131);
* the batch orchestrator: result accumulation, checkpointing every 500
  records, the final per-category partition (lines 133-166);
* the startup liveness probe in `__main__` (lines 286-296).

Strings are modelled as `List Char`.  The Python string operations used by
the code (`str.strip`, `str.lower`, `str.replace`, `str.split`) are embedded
below; network effects are modelled by an oracle giving, per attempt, either
the raw response text (`some`) or a raised exception (`none`).
-/

namespace AlpacaClassifier

/-- Python's notion of (ASCII) whitespace used by `str.strip` / `str.split`:
space, tab, newline, carriage return, vertical tab, form feed. -/
def isWS (c : Char) : Bool :=
  c == ' ' || c == '\t' || c == '\n' || c == '\r' || c == '\x0b' || c == '\x0c'

/-- `s.strip()`: remove leading and trailing whitespace. -/
def pyStrip (s : List Char) : List Char :=
  List.rdropWhile isWS (List.dropWhile isWS s)

/-- `s.lower()` (ASCII letters, which is all the classifier ever compares). -/
def pyLower (s : List Char) : List Char :=
  s.map Char.toLower

/-- The literal marker removed by `category.replace("category:", "")`. -/
def markerChars : List Char :=
  "category:".toList

/-- `s.replace("category:", "")`: remove every non-overlapping occurrence of
the marker, scanning left to right — Python's `str.replace` replaces all
occurrences, not only a leading one. -/
def removeMarker : List Char → List Char
  | 'c' :: 'a' :: 't' :: 'e' :: 'g' :: 'o' :: 'r' :: 'y' :: ':' :: rest =>
      removeMarker rest
  | c :: rest => c :: removeMarker rest
  | [] => []

/-- `s.split()[0] if s.split() else None`: the first whitespace-delimited
token of `s`, or `none` when `s` is empty or all whitespace (Python's
no-argument `split` drops empty fields). -/
def firstWord (s : List Char) : Option (List Char) :=
  match s.dropWhile isWS with
  | [] => none
  | c :: rest => some (List.takeWhile (fun x => !isWS x) (c :: rest))

/-- The closed category set `CATEGORIES` (lines 9-31): 20 subjects plus the
fallback `"other"`. -/
def CATEGORIES : List (List Char) :=
  ["history", "science", "mathematics", "literature", "technology",
   "business", "health_medicine", "geography", "arts", "sports", "law",
   "psychology", "philosophy", "education", "cooking_food", "travel",
   "entertainment", "language", "general_knowledge", "creative_writing",
   "other"].map String.toList

/-- The fallback category `"other"`. -/
def other : List Char :=
  "other".toList

/-- The label normalizer applied to a raw model response (lines 62-67, and
identically lines 116-121):

```python
category = raw.strip().lower()
category = category.replace("category:", "").strip()
category = category.split()[0] if category.split() else "other"
if category not in CATEGORIES: category = "other"
```
-/
def normalizeResponse (raw : List Char) : List Char :=
  let c1 := pyLower (pyStrip raw)
  let c2 := pyStrip (removeMarker c1)
  let c3 := match firstWord c2 with
            | some tok => tok
            | none => other
  if c3 ∈ CATEGORIES then c3 else other

/-- The normalization algorithm as the specification words it, with the
marker stripped *only at the leading position*: lowercase and trim; strip a
literal leading marker token if present; take only the first
whitespace-delimited token of what remains; fall back to `"other"` when
nothing remains or the token is not in the closed set.  Kept separate from
`normalizeResponse` (the code's algorithm) so the two can be compared. -/
def normalizeSpecLeading (raw : List Char) : List Char :=
  let t := pyLower (pyStrip raw)
  let u := if markerChars.isPrefixOf t then t.drop markerChars.length else t
  match firstWord u with
  | none => other
  | some tok => if tok ∈ CATEGORIES then tok else other

/-- The normalization algorithm as the specification words it, amended so
that *every* occurrence of the marker is removed (which is what
`str.replace` does), not only a leading one.  Everything else follows the
spec's wording: take the first whitespace-delimited token of what remains;
fall back when nothing remains or the token is unrecognized. -/
def normalizeAmendedSpec (raw : List Char) : List Char :=
  let t := pyLower (pyStrip raw)
  match firstWord (removeMarker t) with
  | none => other
  | some tok => if tok ∈ CATEGORIES then tok else other

/-! ## The resilient classification loop (lines 88-131)

One record's retry loop.  The outcome of the network call plus JSON parse of
attempt `k` (0-indexed) is an oracle value: `some raw` when the attempt
produces response text `raw`, `none` when it raises.  The loop result
records the assigned category, the increment this record contributes to the
run's `failed_count`, and the sequence of timeout values actually passed to
the attempts, in order. -/

/-- `max_retries = 3` (line 90). -/
def max_retries : Nat := 3

/-- Result of the per-record retry loop. -/
structure RetryResult where
  category : List Char
  failInc : Nat
  timeouts : List Nat
  deriving Repr, DecidableEq

/-- The body of `for attempt in range(max_retries)` (lines 93-131), entered
at attempt index `attempt` with `fuel` iterations remaining:

```python
timeout_val = 60 * (attempt + 1)
try:
    response = requests.post(..., timeout=timeout_val)
    category = <normalize response text>
    break
except Exception:
    if attempt == max_retries - 1:
        category = "other"; failed_count += 1
```
-/
def attemptFrom (oracle : Nat → Option (List Char)) : Nat → Nat → RetryResult
  | 0, _ => ⟨other, 0, []⟩
  | fuel + 1, attempt =>
    let timeout_val := 60 * (attempt + 1)
    match oracle attempt with
    | some raw => ⟨normalizeResponse raw, 0, [timeout_val]⟩
    | none =>
      if attempt = max_retries - 1 then
        ⟨other, 1, [timeout_val]⟩
      else
        let r := attemptFrom oracle fuel (attempt + 1)
        ⟨r.category, r.failInc, timeout_val :: r.timeouts⟩

/-- The whole retry loop for one record: up to `max_retries` attempts
starting at attempt 0. -/
def retryClassify (oracle : Nat → Option (List Char)) : RetryResult :=
  attemptFrom oracle max_retries 0

/-! ## The batch orchestrator (lines 75-169) -/

/-- One record of the source dataset: `example['instruction']`,
`example['input']`, `example['output']`.  Read-only input data. -/
structure InstructionRecord where
  instruction : List Char
  input : List Char
  output : List Char
  deriving Repr, DecidableEq

/-- One entry appended to `results` (lines 133-138). -/
structure ClassifiedRecord where
  instruction : List Char
  input : List Char
  output : List Char
  category : List Char
  deriving Repr, DecidableEq

/-- The orchestrator's mutable state: `results`, `failed_count`, and the
checkpoint artifacts written so far (each tagged with the cumulative record
count `i + 1`, holding a snapshot of `results`). -/
structure BatchState where
  results : List ClassifiedRecord
  failed_count : Nat
  checkpoints : List (Nat × List ClassifiedRecord)
  deriving Repr, DecidableEq

/-- The body of the main loop for record index `i` (lines 88-147): run the
retry loop, append the classified record, add the failure increment, and
write a checkpoint when `(i + 1) % 500 == 0`.  The batch oracle gives each
record its per-attempt outcomes. -/
def stepRecord (oracle : Nat → Nat → Option (List Char)) (st : BatchState)
    (i : Nat) (ex : InstructionRecord) : BatchState :=
  let r := retryClassify (oracle i)
  let results := st.results ++ [⟨ex.instruction, ex.input, ex.output, r.category⟩]
  ⟨results,
   st.failed_count + r.failInc,
   if (i + 1) % 500 = 0 then st.checkpoints ++ [(i + 1, results)] else st.checkpoints⟩

/-- `for i, example in enumerate(dataset)` from index `i` onwards. -/
def runFrom (oracle : Nat → Nat → Option (List Char)) :
    Nat → BatchState → List InstructionRecord → BatchState
  | _, st, [] => st
  | i, st, ex :: rest => runFrom oracle (i + 1) (stepRecord oracle st i ex) rest

/-- `classify_alpaca_dataset` (lines 75-169) restricted to its core effect:
the final `results`, `failed_count` and the checkpoints written along the
way, starting from empty state at record index 0. -/
def classify_alpaca_dataset (oracle : Nat → Nat → Option (List Char))
    (dataset : List InstructionRecord) : BatchState :=
  runFrom oracle 0 ⟨[], 0, []⟩ dataset

/-- The end-of-run partition (lines 159-161):

```python
categorized_data = {cat: [] for cat in CATEGORIES}
for item in results:
    categorized_data[item['category']].append(item)
```

modelled as an association list keyed in `CATEGORIES` order (Python dicts
preserve insertion order). -/
def categorized_data (results : List ClassifiedRecord) :
    List (List Char × List ClassifiedRecord) :=
  results.foldl
    (fun m item => m.map (fun p => if p.1 = item.category then (p.1, p.2 ++ [item]) else p))
    (CATEGORIES.map (fun c => (c, [])))

/-- The per-category artifacts actually written (lines 163-166): one file
per category whose bucket is non-empty. -/
def categoryFiles (results : List ClassifiedRecord) :
    List (List Char × List ClassifiedRecord) :=
  (categorized_data results).filter (fun p => !p.2.isEmpty)

/-- The `__main__` startup sequence (lines 286-299): probe the endpoint;
on failure print and `exit(1)` before touching any record; on success run
the batch.  `probe` is the outcome of the liveness request. -/
def checkOllamaAndRun (probe : Bool) (oracle : Nat → Nat → Option (List Char))
    (dataset : List InstructionRecord) : Except Nat BatchState :=
  if probe then Except.ok (classify_alpaca_dataset oracle dataset)
  else Except.error 1

/-- A concrete per-record oracle: attempt 0 raises, attempt 1 returns the
response text `"history"`. -/
def succeedsSecond : Nat → Option (List Char) :=
  fun n => if n = 1 then some ("history".toList) else none

/-- The classified records the orchestrator produces for the records of
`ds`, when `ds` starts at record index `i`: one `ClassifiedRecord` per
`InstructionRecord`, carrying its fields unchanged plus the category the
retry loop assigns. -/
def classifyAllFrom (oracle : Nat → Nat → Option (List Char)) :
    Nat → List InstructionRecord → List ClassifiedRecord
  | _, [] => []
  | i, ex :: rest =>
    ⟨ex.instruction, ex.input, ex.output, (retryClassify (oracle i)).category⟩ ::
      classifyAllFrom oracle (i + 1) rest

/-! ## Helper lemmas -/

theorem other_mem_CATEGORIES : other ∈ CATEGORIES := by decide

/-- The normalizer always lands in the closed category set. -/
theorem normalizeResponse_mem (raw : List Char) : normalizeResponse raw ∈ CATEGORIES := by
  unfold normalizeResponse
  dsimp only
  split
  · assumption
  · exact other_mem_CATEGORIES

/-- The normalizer fixes every member of the closed category set. -/
theorem normalizeResponse_id_on_CATEGORIES :
    ∀ c ∈ CATEGORIES, normalizeResponse c = c := by decide

theorem takeWhile_append_singleton_of_neg {q : Char → Bool} {x : Char}
    (hx : q x = false) :
    ∀ l : List Char, List.takeWhile q (l ++ [x]) = List.takeWhile q l := by
  intro l
  induction l with
  | nil => simp [List.takeWhile, hx]
  | cons a l ih =>
    cases ha : q a with
    | true => simp [List.takeWhile_cons, ha, ih]
    | false => simp [List.takeWhile_cons, ha]

theorem head_not_ws_of_dropWhile_self {c : Char} {l : List Char}
    (h : List.dropWhile isWS (c :: l) = c :: l) : isWS c = false := by
  by_contra hc
  rw [Bool.not_eq_false] at hc
  rw [List.dropWhile_cons_of_pos hc] at h
  have hlen := congrArg List.length h
  have hle := (List.dropWhile_suffix (l := l) isWS).length_le
  simp only [List.length_cons] at hlen
  omega

/-- Removing *trailing* whitespace does not change the first
whitespace-delimited token, for a string with no leading whitespace. -/
theorem firstWord_rdropWhile (v : List Char)
    (hv : List.dropWhile isWS v = v) :
    firstWord (List.rdropWhile isWS v) = firstWord v := by
  induction v using List.reverseRecOn with
  | nil => simp [List.rdropWhile]
  | append_singleton xs x ih =>
    cases hx : isWS x with
    | false =>
      rw [List.rdropWhile_concat_neg isWS xs x (by simp [hx])]
    | true =>
      cases hxs : xs with
      | nil =>
        exfalso
        rw [hxs] at hv
        have h1 := head_not_ws_of_dropWhile_self (c := x) (l := []) (by simpa using hv)
        rw [hx] at h1
        exact absurd h1 (by simp)
      | cons c xs' =>
        subst hxs
        have hc : isWS c = false :=
          head_not_ws_of_dropWhile_self (l := xs' ++ [x]) (by simpa using hv)
        have hxsfix : List.dropWhile isWS (c :: xs') = c :: xs' :=
          List.dropWhile_cons_of_neg (by simp [hc])
        rw [List.rdropWhile_concat_pos isWS (c :: xs') x (by simp [hx])]
        rw [ih hxsfix]
        unfold firstWord
        rw [hxsfix]
        have hv' : List.dropWhile isWS ((c :: xs') ++ [x]) = (c :: xs') ++ [x] := hv
        rw [hv']
        simp only [List.cons_append]
        have : List.takeWhile (fun y => !isWS y) (c :: (xs' ++ [x]))
            = List.takeWhile (fun y => !isWS y) (c :: xs') := by
          have := takeWhile_append_singleton_of_neg
            (q := fun y => !isWS y) (x := x) (by simp [hx]) (c :: xs')
          simpa using this
        rw [this]

/-- Python's outer `strip()` is invisible to first-token extraction. -/
theorem firstWord_pyStrip (u : List Char) : firstWord (pyStrip u) = firstWord u := by
  unfold pyStrip
  have hfix : List.dropWhile isWS (List.dropWhile isWS u) = List.dropWhile isWS u :=
    List.dropWhile_idempotent isWS u
  rw [firstWord_rdropWhile _ hfix]
  unfold firstWord
  rw [hfix]

/-! ## Claims about the Label Normalizer -/

/-- Claim C1: for every raw model response string, the label normalizer
returns a member of the closed 21-element category set (including the
fallback `"other"`); it is a total function, defined in particular on the
empty and the all-whitespace string, and never returns a string outside the
set. -/
theorem claim_C1_normalizer_closed (raw : List Char) :
    normalizeResponse raw ∈ CATEGORIES := by
  unfold normalizeResponse
  dsimp only
  split
  · assumption
  · exact other_mem_CATEGORIES

/-- Claim C5, counterexample: the claim says the marker `"category"` plus
separator is stripped *only at the leading position*, but the code uses
`str.replace`, which removes every occurrence.  On the raw response
`"acategory:rts"` the code returns `"arts"` (the marker is excised from the
middle of the token), while the algorithm described by the claim keeps the
unrecognized token `"acategory:rts"` and returns the fallback `"other"`. -/
theorem claim_C5_counterexample :
    normalizeResponse ("acategory:rts".toList) = "arts".toList ∧
    normalizeSpecLeading ("acategory:rts".toList) = other ∧
    normalizeResponse ("acategory:rts".toList) ≠
      normalizeSpecLeading ("acategory:rts".toList) := by
  refine ⟨by decide, by decide, by decide⟩

/-- Claim C5 as amended: the normalizer lowercases and trims the raw string,
removes *every* occurrence of the literal marker token (the word
`"category"` plus separator) — not only a leading one — takes only the
first whitespace-delimited token of what remains, and returns the fallback
exactly when that token is not in the closed category set or nothing
remains; an unrecognized token yields the fallback, never an error. -/
theorem claim_C5_amended_normalizer_algorithm (raw : List Char) :
    normalizeResponse raw = normalizeAmendedSpec raw := by
  unfold normalizeResponse normalizeAmendedSpec
  dsimp only
  rw [firstWord_pyStrip]
  rcases firstWord (removeMarker (pyLower (pyStrip raw))) with _ | tok
  · simp [other_mem_CATEGORIES]
  · rfl

/-- Claim C10: the normalizer is the identity on every member of the closed
category set (all category names are lowercase, whitespace-free and
marker-free), and is therefore idempotent: normalizing its own output
returns that output unchanged. -/
theorem claim_C10_normalizer_identity_idempotent :
    (∀ c ∈ CATEGORIES, normalizeResponse c = c) ∧
    (∀ s : List Char, normalizeResponse (normalizeResponse s) = normalizeResponse s) :=
  ⟨normalizeResponse_id_on_CATEGORIES,
   fun s => normalizeResponse_id_on_CATEGORIES _ (normalizeResponse_mem s)⟩

/-- Witness for C10 at the concrete category `"history"`. -/
theorem claim_C10_witness :
    normalizeResponse ("history".toList) = "history".toList :=
  claim_C10_normalizer_identity_idempotent.1 ("history".toList) (by decide)

/-! ## Claims about the resilient classification loop -/

/-- Claim C2: if all three attempts fail, the loop assigns the fallback
category and contributes exactly 1 to the run's failure counter; if any
attempt within the budget succeeds, the failure counter is unchanged for
that record (even when the normalized result of the successful attempt is
itself the fallback). -/
theorem claim_C2_fallback_and_failure_counter (oracle : Nat → Option (List Char)) :
    ((∀ k, k < max_retries → oracle k = none) →
      (retryClassify oracle).category = other ∧ (retryClassify oracle).failInc = 1) ∧
    ((∃ k, k < max_retries ∧ (oracle k).isSome) →
      (retryClassify oracle).failInc = 0) := by
  constructor
  · intro h
    have h0 := h 0 (by decide)
    have h1 := h 1 (by decide)
    have h2 := h 2 (by decide)
    simp [retryClassify, attemptFrom, max_retries, h0, h1, h2]
  · rintro ⟨k, hk, hsome⟩
    rcases h0 : oracle 0 with _ | r0
    · rcases h1 : oracle 1 with _ | r1
      · rcases h2 : oracle 2 with _ | r2
        · have hk3 : k < 3 := hk
          interval_cases k <;> simp_all
        · simp [retryClassify, attemptFrom, max_retries, h0, h1, h2]
      · simp [retryClassify, attemptFrom, max_retries, h0, h1]
    · simp [retryClassify, attemptFrom, max_retries, h0]

/-- Witness for C2: with an oracle that always raises, the loop assigns the
fallback and contributes exactly 1 failure. -/
theorem claim_C2_witness :
    (retryClassify (fun _ => none)).category = other ∧
    (retryClassify (fun _ => none)).failInc = 1 :=
  (claim_C2_fallback_and_failure_counter (fun _ => none)).1 (fun _ _ => rfl)

/-- Claim C3: the timeouts actually used by the loop, in order, are always a
non-empty initial run of `[60, 120, 180]` — attempt `k` (1-indexed) uses
timeout `k * 60` — and there is never a fourth attempt. -/
theorem claim_C3_timeout_schedule (oracle : Nat → Option (List Char)) :
    (retryClassify oracle).timeouts = [60] ∨
    (retryClassify oracle).timeouts = [60, 120] ∨
    (retryClassify oracle).timeouts = [60, 120, 180] := by
  rcases h0 : oracle 0 with _ | r0
  · rcases h1 : oracle 1 with _ | r1
    · rcases h2 : oracle 2 with _ | r2 <;>
        simp [retryClassify, attemptFrom, max_retries, h0, h1, h2]
    · simp [retryClassify, attemptFrom, max_retries, h0, h1]
  · simp [retryClassify, attemptFrom, max_retries, h0]

/-- Claim C4: if the classification client succeeds on attempt `k`
(0-indexed here, `k < 3`; the claim's attempt `k+1`), the loop makes no
further attempts — exactly `k + 1` timeouts are consumed — and the record's
category is the normalized result of that attempt. -/
theorem claim_C4_first_success_wins (oracle : Nat → Option (List Char))
    (k : Nat) (raw : List Char) (hk : k < max_retries)
    (hprev : ∀ j, j < k → oracle j = none) (hsucc : oracle k = some raw) :
    (retryClassify oracle).category = normalizeResponse raw ∧
    (retryClassify oracle).timeouts.length = k + 1 := by
  have hk3 : k < 3 := hk
  interval_cases k
  · simp [retryClassify, attemptFrom, max_retries, hsucc]
  · have h0 := hprev 0 (by decide)
    simp [retryClassify, attemptFrom, max_retries, h0, hsucc]
  · have h0 := hprev 0 (by decide)
    have h1 := hprev 1 (by decide)
    simp [retryClassify, attemptFrom, max_retries, h0, h1, hsucc]

/-- Witness for C4: an oracle that raises on attempt 0 and answers
`"history"` on attempt 1 stops after two attempts with that answer. -/
theorem claim_C4_witness :
    (retryClassify succeedsSecond).category = normalizeResponse ("history".toList) ∧
    (retryClassify succeedsSecond).timeouts.length = 1 + 1 :=
  claim_C4_first_success_wins succeedsSecond 1 ("history".toList) (by decide)
    (fun j hj => by interval_cases j; rfl) rfl

/-! ## Helper lemmas about the batch orchestrator -/

theorem runFrom_append (oracle : Nat → Nat → Option (List Char))
    (l₁ l₂ : List InstructionRecord) :
    ∀ (i : Nat) (st : BatchState),
      runFrom oracle i st (l₁ ++ l₂) =
        runFrom oracle (i + l₁.length) (runFrom oracle i st l₁) l₂ := by
  induction l₁ with
  | nil => intro i st; simp [runFrom]
  | cons ex rest ih =>
    intro i st
    simp only [List.cons_append, runFrom, List.length_cons, List.append_eq]
    rw [ih]
    have harith : i + 1 + rest.length = i + (rest.length + 1) := by omega
    rw [harith]

theorem runFrom_results (oracle : Nat → Nat → Option (List Char))
    (ds : List InstructionRecord) :
    ∀ (i : Nat) (st : BatchState),
      (runFrom oracle i st ds).results = st.results ++ classifyAllFrom oracle i ds := by
  induction ds with
  | nil => intro i st; simp [runFrom, classifyAllFrom]
  | cons ex rest ih =>
    intro i st
    simp only [runFrom, classifyAllFrom]
    rw [ih]
    simp [stepRecord]

theorem classifyAllFrom_length (oracle : Nat → Nat → Option (List Char)) :
    ∀ (i : Nat) (ds : List InstructionRecord),
      (classifyAllFrom oracle i ds).length = ds.length := by
  intro i ds
  induction ds generalizing i with
  | nil => rfl
  | cons ex rest ih => simp [classifyAllFrom, ih]

theorem classifyAllFrom_fields (oracle : Nat → Nat → Option (List Char)) :
    ∀ (i : Nat) (ds : List InstructionRecord),
      (classifyAllFrom oracle i ds).map (fun r => (r.instruction, r.input, r.output)) =
        ds.map (fun e => (e.instruction, e.input, e.output)) := by
  intro i ds
  induction ds generalizing i with
  | nil => rfl
  | cons ex rest ih => simp [classifyAllFrom, ih]

theorem run_results_length (oracle : Nat → Nat → Option (List Char))
    (ds : List InstructionRecord) :
    (classify_alpaca_dataset oracle ds).results.length = ds.length := by
  unfold classify_alpaca_dataset
  rw [runFrom_results]
  simp [classifyAllFrom_length]

/-! ## Claims about the batch orchestrator -/

/-- Claim C6: the orchestrator's output sequence has the same length as the
input dataset, appears in the same order, and every classified record
carries its source record's instruction, input and output texts
unchanged. -/
theorem claim_C6_order_and_fields_preserved (oracle : Nat → Nat → Option (List Char))
    (ds : List InstructionRecord) :
    (classify_alpaca_dataset oracle ds).results.length = ds.length ∧
    (classify_alpaca_dataset oracle ds).results.map
        (fun r => (r.instruction, r.input, r.output)) =
      ds.map (fun e => (e.instruction, e.input, e.output)) := by
  constructor
  · exact run_results_length oracle ds
  · unfold classify_alpaca_dataset
    rw [runFrom_results]
    simp [classifyAllFrom_fields]

theorem run_append_singleton (oracle : Nat → Nat → Option (List Char))
    (ds : List InstructionRecord) (ex : InstructionRecord) :
    classify_alpaca_dataset oracle (ds ++ [ex]) =
      stepRecord oracle (classify_alpaca_dataset oracle ds) ds.length ex := by
  unfold classify_alpaca_dataset
  rw [runFrom_append]
  simp [runFrom]

/-- Claim C7: for an `N`-record batch, a checkpoint is written after records
500, 1000, 1500, … — `⌊N/500⌋` checkpoints in total — and the checkpoint
tagged with record count `m = (j+1)·500` contains exactly the first `m`
classified records produced so far, in input order. -/
theorem claim_C7_checkpoint_schedule (oracle : Nat → Nat → Option (List Char))
    (ds : List InstructionRecord) :
    (classify_alpaca_dataset oracle ds).checkpoints =
      (List.range (ds.length / 500)).map
        (fun j => ((j + 1) * 500,
          (classify_alpaca_dataset oracle ds).results.take ((j + 1) * 500))) := by
  induction ds using List.reverseRecOn with
  | nil => simp [classify_alpaca_dataset, runFrom]
  | append_singleton ds ex ih =>
    have hlen : (classify_alpaca_dataset oracle ds).results.length = ds.length :=
      run_results_length oracle ds
    rw [run_append_singleton, List.length_append]
    simp only [stepRecord, List.length_singleton]
    by_cases h : (ds.length + 1) % 500 = 0
    · have hdiv : (ds.length + 1) / 500 = ds.length / 500 + 1 := by omega
      have hmul : (ds.length / 500 + 1) * 500 = ds.length + 1 := by omega
      rw [if_pos h, hdiv, List.range_succ, List.map_append, ih]
      congr 1
      · apply List.map_congr_left
        intro j hj
        have hj' : j < ds.length / 500 := List.mem_range.mp hj
        have hle : (j + 1) * 500 ≤ ds.length := by
          have h1 : (j + 1) * 500 ≤ (ds.length / 500) * 500 :=
            Nat.mul_le_mul_right _ hj'
          have h2 := Nat.div_mul_le_self ds.length 500
          omega
        rw [List.take_append_of_le_length (by omega)]
      · simp only [List.map_cons, List.map_nil, hmul]
        rw [List.take_of_length_le]
        simp [hlen]
    · have hdiv : (ds.length + 1) / 500 = ds.length / 500 := by omega
      rw [if_neg h, hdiv, ih]
      apply List.map_congr_left
      intro j hj
      have hj' : j < ds.length / 500 := List.mem_range.mp hj
      have hle : (j + 1) * 500 ≤ ds.length := by
        have h1 : (j + 1) * 500 ≤ (ds.length / 500) * 500 :=
          Nat.mul_le_mul_right _ hj'
        have h2 := Nat.div_mul_le_self ds.length 500
        omega
      rw [List.take_append_of_le_length (by omega)]

theorem categorized_data_foldl (rs : List ClassifiedRecord) :
    ∀ m : List (List Char × List ClassifiedRecord),
      rs.foldl
        (fun m item => m.map (fun p => if p.1 = item.category then (p.1, p.2 ++ [item]) else p))
        m =
      m.map (fun p => (p.1, p.2 ++ rs.filter (fun r => r.category == p.1))) := by
  induction rs with
  | nil => intro m; simp
  | cons r rs ih =>
    intro m
    rw [List.foldl_cons, ih, List.map_map]
    apply List.map_congr_left
    intro p hp
    by_cases hpc : p.1 = r.category
    · simp [Function.comp, hpc, List.filter_cons]
    · have hbeq : (r.category == p.1) = false := by
        simp [hpc]
        exact fun he => hpc he.symm
      simp [Function.comp, hpc, List.filter_cons, hbeq]

theorem categorized_data_eq_filter (rs : List ClassifiedRecord) :
    categorized_data rs =
      CATEGORIES.map (fun c => (c, rs.filter (fun r => r.category == c))) := by
  unfold categorized_data
  rw [categorized_data_foldl, List.map_map]
  apply List.map_congr_left
  intro c hc
  rfl

/-- Claim C8: the end-of-run partition maps exactly the categories of the
closed set (its keys are `CATEGORIES`, in order); a per-category artifact is
written exactly for each non-empty category; and each artifact contains
exactly the classified records whose assigned category equals the artifact's
category, in input order. -/
theorem claim_C8_partition_closed_and_exact (oracle : Nat → Nat → Option (List Char))
    (ds : List InstructionRecord) :
    ((categorized_data (classify_alpaca_dataset oracle ds).results).map Prod.fst =
      CATEGORIES) ∧
    categoryFiles (classify_alpaca_dataset oracle ds).results =
      (CATEGORIES.map (fun c =>
        (c, (classify_alpaca_dataset oracle ds).results.filter
              (fun r => r.category == c)))).filter
        (fun p => !p.2.isEmpty) := by
  constructor
  · rw [categorized_data_eq_filter, List.map_map]
    exact List.map_id CATEGORIES
  · unfold categoryFiles
    rw [categorized_data_eq_filter]

/-- Claim C9: if the startup liveness probe fails, the program aborts with
the non-zero exit code 1 and no record is processed (the result carries no
batch state and does not depend on the dataset); if the probe succeeds, the
batch run proceeds and produces the orchestrator's result. -/
theorem claim_C9_startup_probe (oracle : Nat → Nat → Option (List Char))
    (ds : List InstructionRecord) :
    checkOllamaAndRun false oracle ds = Except.error 1 ∧
    checkOllamaAndRun true oracle ds = Except.ok (classify_alpaca_dataset oracle ds) :=
  ⟨rfl, rfl⟩

end AlpacaClassifier
